import Mathlib

/-!
A shallow embedding of the core of the Atto language implementation
(lexer fragment, parser, and tree-walking evaluator), translated from
the Rust sources `src/parse/lex.rs`, `src/parse/parse.rs` and
`src/exec/ast.rs`, together with theorems checking the specification's
claims about it.

Modelling conventions:
* Rust `f64` is modelled by Lean `Float` (both are IEEE-754 binary64;
  `==` on `Float` is IEEE equality, as in Rust).
* Rust `usize` is modelled by `Nat`.  The only subtractions performed
  by the embedded code are on quantities satisfying `offset ≤ buf.length`,
  so truncating `Nat` subtraction agrees with `usize` subtraction there.
* Rust panics (`panic!`, `unimplemented!`) are modelled as
  `Except.error (RtError.fatal msg)`.
* The evaluator's recursion is not structural (calls jump into global
  bodies and closure bodies), so it takes a fuel parameter; exhausting
  fuel yields the distinguished `RtError.outOfFuel`, which corresponds
  to no behaviour of the Rust code (the Rust evaluator simply recurses).
* The process-wide `NEXT_UNIVERSE` atomic counter and the standard
  input/output streams are modelled by an explicit `EvalState` record
  threaded through evaluation.  `NEXT_UNIVERSE.fetch_add` increments the
  counter even when the subsequent guard fails, but in that case the Rust
  code panics, so the increment is unobservable and the model performs
  the increment only on success.
* Source ranges (`SrcRange`) are bookkeeping for diagnostics only; the
  embedding models errors by their kind (`ErrorKind`), dropping ranges,
  and tokens by their lexeme.
-/

namespace Atto

/-- Rust `parse::ast::Literal` from `src/parse/ast.rs`. -/
inductive Literal where
  | num (x : Float)
  | str (s : String)
  | bool (b : Bool)
  | null
deriving Repr

/-- Rust `parse::ast::Decl` from `src/parse/ast.rs`. -/
inductive Decl where
  | single (name : String)
  | destructure (names : List String)
deriving Repr

mutual

/-- Rust `parse::ast::Expr` from `src/parse/ast.rs`. -/
inductive Expr where
  | literal (l : Literal)
  | if_ (cond then_ else_ : Expr)
  | let_ (decl : Decl) (val body : Expr)
  | builtin (b : Builtin)
  | call (name : String) (args : List Expr)
  | closure (decl : Decl) (body : Expr)

/-- Rust `parse::ast::Builtin` from `src/parse/ast.rs`. -/
inductive Builtin where
  | head (a : Expr)
  | tail (a : Expr)
  | wrap (a : Expr)
  | cat (a b : Expr)
  | input (a : Expr)
  | print (a b : Expr)
  | debug (a : Expr)
  | add (a b : Expr)
  | sub (a b : Expr)
  | mul (a b : Expr)
  | div (a b : Expr)
  | rem (a b : Expr)
  | eq (a b : Expr)
  | less (a b : Expr)
  | lesseq (a b : Expr)
  | floor (a : Expr)
  | ceil (a : Expr)

end

/-- Rust `exec::ast::Value` from `src/exec/ast.rs`.  The `func` variant captures
the local environment (Rust `HashMap<&str, Value>`, modelled as an
association list with replace-on-insert semantics), the declaration and
the body expression. -/
inductive Value where
  | null
  | bool (b : Bool)
  | num (x : Float)
  | char (c : Char)
  | list (offset : Nat) (buf : List Value)
  | func (locals : List (String × Value)) (decl : Decl) (body : Expr)
  | Universe (n : Nat)

/-- The live slice `buf[offset..]` of a `List` value (empty for other
variants); the observable element sequence of a list. -/
def Value.liveSlice : Value → List Value
  | .list offset buf => buf.drop offset
  | _ => []

mutual

/-- Rust `Value::eq` from `src/exec/ast.rs` (lines 201-223).  Note that the
list case compares the lengths of the live slices but then zips the
FULL backing buffers (`buf_a.iter().zip(buf_b.iter())`), not the live
slices.  `eqZipAll bufA bufB` renders Rust's
`!buf_a.iter().zip(buf_b.iter()).any(|(a, b)| !a.eq(b))`. -/
def Value.eq : Value → Value → Bool
  | .null, .null => true
  | .bool a, .bool b => a == b
  | .num a, .num b => a == b
  | .char a, .char b => a == b
  | .list offsetA bufA, .list offsetB bufB =>
    let lenA := bufA.length - offsetA
    let lenB := bufB.length - offsetB
    if lenA = 0 && lenB = 0 then
      true
    else
      lenA == lenB && eqZipAll bufA bufB
  | _, _ => false

/-- All zipped pairs of the two buffers satisfy `Value.eq`; stops at the
shorter buffer, exactly as `iter().zip(iter())` does. -/
def eqZipAll : List Value → List Value → Bool
  | a :: as_, b :: bs => a.eq b && eqZipAll as_ bs
  | _, _ => true

end

/-- Runtime failures of the evaluator.  `fatal` models a Rust panic
(`panic!` / `unimplemented!`); `outOfFuel` is the model's own marker for
exhausted recursion fuel and corresponds to no Rust behaviour. -/
inductive RtError where
  | fatal (msg : String)
  | outOfFuel
deriving Repr, DecidableEq

/-- The process-wide state touched by evaluation: the `NEXT_UNIVERSE`
atomic counter, standard input (one entry per `read_line` result, the
trailing newline included), and standard output (one entry per write). -/
structure EvalState where
  nextUniverse : Nat
  stdin : List String
  stdout : List String
  /-- Values written by `__debug` (Rust prints their `Debug` formatting;
  the model records the value itself). -/
  debugOut : List Value
deriving Inhabited

/-- Rust `Value::to_str`'s character fold on the live slice
(`try_fold` in `src/exec/ast.rs` lines 51-58): the joined characters if
every element is a `Char`, else `none`. -/
def tryChars : List Value → String → Option String
  | [], s => some s
  | .char c :: rest, s => tryChars rest (s.push c)
  | _, _ => none

mutual

/-- Rust `Value::to_str` from `src/exec/ast.rs` (lines 42-67).  The list case
maps `to_str` over the live slice `buf[offset..]`; here this is rendered
as `(toStrAll buf).drop offset`, which maps over the whole buffer and
then drops the first `offset` results (the same strings, computed
structurally). -/
def Value.to_str : Value → String
  | .null => "null"
  | .bool a => toString a
  | .num a => toString a
  | .char a => String.singleton a
  | .list offset buf =>
    if (buf.drop offset).length = 0 then
      "[]"
    else
      match tryChars (buf.drop offset) "" with
      | some s => s
      | none => "[" ++ String.intercalate ", " ((toStrAll buf).drop offset) ++ "]"
  | .func _ _ _ => "<func>"
  | .Universe _ => "<universe>"

/-- Rust `to_str` of every element of a buffer. -/
def toStrAll : List Value → List String
  | [] => []
  | v :: rest => v.to_str :: toStrAll rest

end

/-- Rust `Value::input` from `src/exec/ast.rs` (lines 69-88).  Consumes a
universe token matching the current counter, reads one line from
standard input and returns `[u+1, chars(line)]`; any other argument is
the fatal "Invalid universe value!" panic. -/
def Value.input (v : Value) (st : EvalState) : Except RtError (Value × EvalState) :=
  match v with
  | .Universe a =>
    if a = st.nextUniverse then
      let line := st.stdin.headD ""
      Except.ok
        (Value.list 0 [Value.Universe (a + 1),
            Value.list 0 (line.data.map Value.char)],
          { st with nextUniverse := a + 1, stdin := st.stdin.tail })
    else
      Except.error (RtError.fatal "Invalid universe value!")
  | _ => Except.error (RtError.fatal "Invalid universe value!")

/-- Rust `Value::print` from `src/exec/ast.rs` (lines 90-98).  Consumes a
universe token matching the current counter, writes the stringified
second argument plus a newline to standard output, and returns the next
universe token. -/
def Value.print (v other : Value) (st : EvalState) : Except RtError (Value × EvalState) :=
  match v with
  | .Universe a =>
    if a = st.nextUniverse then
      Except.ok
        (Value.Universe (a + 1),
          { st with nextUniverse := a + 1,
                    stdout := st.stdout ++ [other.to_str ++ "\n"] })
    else
      Except.error (RtError.fatal "Invalid universe value!")
  | _ => Except.error (RtError.fatal "Invalid universe value!")

/-- Rust `Value::head` from `src/exec/ast.rs` (lines 100-109). -/
def Value.head : Value → Value
  | .list offset buf =>
    match buf[offset]? with
    | some h => h
    | none => .null
  | a => a

/-- Rust `Value::tail` from `src/exec/ast.rs` (lines 111-119). -/
def Value.tail : Value → Value
  | .list offset buf => .list (min (offset + 1) buf.length) buf
  | _ => .null

/-- Rust `Value::wrap` from `src/exec/ast.rs` (lines 121-126). -/
def Value.wrap (v : Value) : Value :=
  .list 0 [v]

/-- Rust `Value::cat` from `src/exec/ast.rs` (lines 128-164). -/
def Value.cat : Value → Value → Value
  | .list offsetA bufA, .list offsetB bufB =>
    .list 0 (bufA.drop offsetA ++ bufB.drop offsetB)
  | .list offsetA bufA, b => .list 0 (bufA.drop offsetA ++ [b])
  | a, .list offsetB bufB => .list 0 (a :: bufB.drop offsetB)
  | _, _ => .null

/-- Rust `Value::add` from `src/exec/ast.rs` (lines 166-171); non-numeric
operands hit `unimplemented!`. -/
def Value.add : Value → Value → Except RtError Value
  | .num a, .num b => .ok (.num (a + b))
  | _, _ => .error (.fatal "unimplemented")

/-- Rust `Value::sub` from `src/exec/ast.rs` (lines 173-178). -/
def Value.sub : Value → Value → Except RtError Value
  | .num a, .num b => .ok (.num (a - b))
  | _, _ => .error (.fatal "unimplemented")

/-- Rust `Value::mul` from `src/exec/ast.rs` (lines 180-185). -/
def Value.mul : Value → Value → Except RtError Value
  | .num a, .num b => .ok (.num (a * b))
  | _, _ => .error (.fatal "unimplemented")

/-- Rust `Value::div` from `src/exec/ast.rs` (lines 187-192): IEEE division
of the two operands, with no divisor-zero guard. -/
def Value.div : Value → Value → Except RtError Value
  | .num a, .num b => .ok (.num (a / b))
  | _, _ => .error (.fatal "unimplemented")

/-- Rust's `%` on `f64` is the truncated floating-point remainder
`a - b * trunc(a / b)`; Lean's `Float` exposes no `fmod` primitive, so
it is written out with `floor`/`ceil` (the rounding of the intermediate
quotient may differ from a fused `fmod` in the last bit; no claim
depends on it). -/
def floatRem (a b : Float) : Float :=
  let q := a / b
  a - b * (if q ≥ 0 then q.floor else q.ceil)

/-- Rust `Value::rem` from `src/exec/ast.rs` (lines 194-199). -/
def Value.rem : Value → Value → Except RtError Value
  | .num a, .num b => .ok (.num (floatRem a b))
  | _, _ => .error (.fatal "unimplemented")

/-- Rust `Value::less` from `src/exec/ast.rs` (lines 225-230). -/
def Value.less : Value → Value → Except RtError Bool
  | .num a, .num b => .ok (a < b)
  | _, _ => .error (.fatal "unimplemented")

/-- Rust `Value::lesseq` from `src/exec/ast.rs` (lines 232-237). -/
def Value.lesseq : Value → Value → Except RtError Bool
  | .num a, .num b => .ok (a ≤ b)
  | _, _ => .error (.fatal "unimplemented")

/-- Rust `Value::floor` from `src/exec/ast.rs` (lines 239-244). -/
def Value.floor : Value → Except RtError Value
  | .num a => .ok (.num a.floor)
  | _ => .error (.fatal "unimplemented")

/-- Rust `Value::ceil` from `src/exec/ast.rs` (lines 246-251). -/
def Value.ceil : Value → Except RtError Value
  | .num a => .ok (.num a.ceil)
  | _ => .error (.fatal "unimplemented")

/-- Association-list rendering of `HashMap::insert`: replaces the entry
for an existing key, otherwise appends a fresh entry. -/
def assocInsert {α : Type} (m : List (String × α)) (k : String) (v : α) :
    List (String × α) :=
  if m.any (fun p => p.1 = k) then
    m.map (fun p => if p.1 = k then (k, v) else p)
  else
    m ++ [(k, v)]

/-- Association-list rendering of `HashMap::get`. -/
def assocGet {α : Type} (m : List (String × α)) (k : String) : Option α :=
  (m.find? (fun p => p.1 = k)).map (fun p => p.2)

/-- Rust `parse::ast::Program` from `src/parse/ast.rs`: the map from global
name to body expression (Rust `HashMap<String, Expr>`, modelled as an
association list with replace-on-insert semantics). -/
structure Program where
  globals : List (String × Expr)

/-- The local environment of evaluation (Rust `HashMap<&str, Value>`). -/
abbrev Env := List (String × Value)

/-- Sequentially insert the zipped `(name, value)` pairs into an
environment, mirroring
`for (name, val) in names.iter().zip(vals) { locals.insert(name, val.clone()) }`. -/
def envInsertPairs : Env → List String → List Value → Env
  | locals, n :: ns, v :: vs => envInsertPairs (assocInsert locals n v) ns vs
  | locals, _, _ => locals

/-- The declaration-binding logic that `src/exec/ast.rs` inlines in
`Value::call`, `Expr::Let` and `Expr::Closure` (lines 259-271, 323-335,
385-397): bind a single name, or destructure a list argument whose live
slice has exactly as many elements as there are names. -/
def bindDecl (locals : Env) (decl : Decl) (arg : Value) : Except RtError Env :=
  match decl with
  | .single name => .ok (assocInsert locals name arg)
  | .destructure names =>
    match arg with
    | .list offset buf =>
      if (buf.drop offset).length ≠ names.length then
        .error (.fatal "Cannot destructure list of incorrect length")
      else
        .ok (envInsertPairs locals names (buf.drop offset))
    | _ => .error (.fatal "Cannot destructure non-list!")

mutual

/-- Rust `eval` from `src/exec/ast.rs` (lines 298-405), with explicit fuel
(first argument, decremented once per call) and explicit `EvalState`
threading.  Argument order follows the Rust signature
`eval(expr, prog, args, locals)`. -/
def eval : Nat → Expr → Program → List Value → Env → EvalState →
    Except RtError (Value × EvalState)
  | 0, _, _, _, _, _ => .error .outOfFuel
  | fuel + 1, e, prog, args, locals, st =>
    match e with
    | .literal lit =>
      match lit with
      | .num x => .ok (.num x, st)
      -- Rust tests `s.len() == 1`, the UTF-8 BYTE length
      | .str s =>
        if s.utf8ByteSize = 1 then
          .ok (.char (s.data.headD ' '), st)
        else
          .ok (.list 0 (s.data.map Value.char), st)
      | .bool b => .ok (.bool b, st)
      | .null => .ok (.null, st)
    | .if_ c t f => do
      let (v, st') ← eval fuel c prog args locals st
      match v with
      | .bool true => eval fuel t prog args locals st'
      | _ => eval fuel f prog args locals st'
    | .let_ decl ve body => do
      let (v, st') ← eval fuel ve prog args locals st
      let locals' ← bindDecl locals decl v
      eval fuel body prog args locals' st'
    | .builtin b => evalBuiltin fuel b prog args locals st
    | .call name callArgs => do
      let (vs, st') ← evalArgs fuel callArgs prog args locals st
      -- call_args.extend_from_slice(args)
      let allArgs := vs ++ args
      match assocGet locals name with
      | some localVal => callValue fuel localVal prog allArgs st'
      | none =>
        match assocGet prog.globals name with
        | some globalBody => eval fuel globalBody prog allArgs [] st'
        | none => .error (.fatal ("Could not find item " ++ name))
    | .closure decl body =>
      match args with
      | arg :: rest => do
        let locals' ← bindDecl locals decl arg
        eval fuel body prog rest locals' st
      | [] => .ok (.func locals decl body, st)

/-- Left-to-right evaluation of the expressions of a `Call` node
(`src/exec/ast.rs` lines 367-370). -/
def evalArgs : Nat → List Expr → Program → List Value → Env → EvalState →
    Except RtError (List Value × EvalState)
  | 0, _, _, _, _, _ => .error .outOfFuel
  | _ + 1, [], _, _, _, st => .ok ([], st)
  | fuel + 1, e :: es, prog, args, locals, st => do
    let (v, st') ← eval fuel e prog args locals st
    let (vs, st'') ← evalArgs fuel es prog args locals st'
    .ok (v :: vs, st'')

/-- Rust `Value::call` from `src/exec/ast.rs` (lines 253-280): with no
arguments the callee is returned unchanged; otherwise the callee must be
a `Func`, whose declaration is bound to the first argument before its
body consumes the rest. -/
def callValue : Nat → Value → Program → List Value → EvalState →
    Except RtError (Value × EvalState)
  | 0, _, _, _, _ => .error .outOfFuel
  | fuel + 1, v, prog, args, st =>
    match args with
    | arg :: rest =>
      match v with
      | .func locals decl body => do
        let locals' ← bindDecl locals decl arg
        eval fuel body prog rest locals' st
      | _ => .error (.fatal "Too many arguments!")
    | [] => .ok (v, st)

/-- The `Expr::Builtin` dispatch of `eval` (`src/exec/ast.rs`
lines 339-365): evaluate the operands left to right, then perform the
operation. -/
def evalBuiltin : Nat → Builtin → Program → List Value → Env → EvalState →
    Except RtError (Value × EvalState)
  | 0, _, _, _, _, _ => .error .outOfFuel
  | fuel + 1, b, prog, args, locals, st =>
    match b with
    | .print a c => do
      let (va, st1) ← eval fuel a prog args locals st
      let (vc, st2) ← eval fuel c prog args locals st1
      va.print vc st2
    | .input a => do
      let (va, st1) ← eval fuel a prog args locals st
      va.input st1
    | .debug a => do
      let (va, st1) ← eval fuel a prog args locals st
      .ok (va, { st1 with debugOut := st1.debugOut ++ [va] })
    | .head a => do
      let (va, st1) ← eval fuel a prog args locals st
      .ok (va.head, st1)
    | .tail a => do
      let (va, st1) ← eval fuel a prog args locals st
      .ok (va.tail, st1)
    | .wrap a => do
      let (va, st1) ← eval fuel a prog args locals st
      .ok (va.wrap, st1)
    | .cat a c => do
      let (va, st1) ← eval fuel a prog args locals st
      let (vc, st2) ← eval fuel c prog args locals st1
      .ok (va.cat vc, st2)
    | .add a c => do
      let (va, st1) ← eval fuel a prog args locals st
      let (vc, st2) ← eval fuel c prog args locals st1
      let r ← va.add vc
      .ok (r, st2)
    | .sub a c => do
      let (va, st1) ← eval fuel a prog args locals st
      let (vc, st2) ← eval fuel c prog args locals st1
      let r ← va.sub vc
      .ok (r, st2)
    | .mul a c => do
      let (va, st1) ← eval fuel a prog args locals st
      let (vc, st2) ← eval fuel c prog args locals st1
      let r ← va.mul vc
      .ok (r, st2)
    | .div a c => do
      let (va, st1) ← eval fuel a prog args locals st
      let (vc, st2) ← eval fuel c prog args locals st1
      let r ← va.div vc
      .ok (r, st2)
    | .rem a c => do
      let (va, st1) ← eval fuel a prog args locals st
      let (vc, st2) ← eval fuel c prog args locals st1
      let r ← va.rem vc
      .ok (r, st2)
    | .eq a c => do
      let (va, st1) ← eval fuel a prog args locals st
      let (vc, st2) ← eval fuel c prog args locals st1
      .ok (.bool (va.eq vc), st2)
    | .less a c => do
      let (va, st1) ← eval fuel a prog args locals st
      let (vc, st2) ← eval fuel c prog args locals st1
      let r ← va.less vc
      .ok (.bool r, st2)
    | .lesseq a c => do
      let (va, st1) ← eval fuel a prog args locals st
      let (vc, st2) ← eval fuel c prog args locals st1
      let r ← va.lesseq vc
      .ok (.bool r, st2)
    | .floor a => do
      let (va, st1) ← eval fuel a prog args locals st
      let r ← va.floor
      .ok (r, st1)
    | .ceil a => do
      let (va, st1) ← eval fuel a prog args locals st
      let r ← va.ceil
      .ok (r, st1)

end

/-! ### Lexer fragment: string literals

`lex` in `src/parse/lex.rs` is a character-driven state machine; string
literals are processed by the `State::String(text, escaped)` arms
(lines 86-102).  While in that state the step depends only on the
accumulated text, the escape flag and the next character, so the
fragment embeds as a standalone recursion over the remaining input.
Rust reads a `'\0'` sentinel at end of input and `break`s out of the
loop on it (leaving the string unterminated, an `ExpectedDelimiter('"')`
error); both end of input and a literal NUL character therefore map to
`none` here. -/

/-- The `State::String` arms of `lex` (`src/parse/lex.rs` lines 86-102):
consume input characters until the closing quote, decoding escapes;
returns the decoded text and the remaining input, or `none` if the
string is unterminated. -/
def lexString : List Char → String → Bool → Option (String × List Char)
  | [], _, _ => none
  | c :: rest, text, escaped =>
    if c = '"' then
      some (text, rest)
    else if c = '\x00' then
      none
    else if escaped then
      lexString rest
        (match c with
          | '\\' => text.push '\\'
          | 'n' => text.push '\n'
          | _ => text)
        false
    else if c = '\\' then
      lexString rest text true
    else
      lexString rest (text.push c) false

/-! ### Tokens and parse errors -/

/-- Rust `parse::lex::Lexeme` from `src/parse/lex.rs`. -/
inductive Lexeme where
  | ident (name : String) (scalar : Bool) (arity : Nat)
  | str (s : String)
  | num (s : String)
  | def_
  | let_
  | if_
  | true_
  | false_
  | null_
  | pipe
  | dollar
  | arrow
deriving Repr, DecidableEq

/-- A token; `src/parse/lex.rs` pairs the lexeme with a `SrcRange`,
which only feeds diagnostics and is dropped by the embedding. -/
abbrev Token := Lexeme

/-- The `Expected` enum (`src/lib.rs` lines 97-103).  `parse.rs` also
uses an `arrow` variant that this snapshot's `lib.rs` enum is missing;
it is included so that the parser embeds. -/
inductive Expected where
  | arityIdent
  | noArityIdent
  | pipe
  | arrow
  | def_
  | closeParen
deriving Repr, DecidableEq

/-- The `Unexpected` enum (`src/lib.rs` lines 105-108). -/
inductive Unexpected where
  | eof
  | def_
deriving Repr, DecidableEq

/-- Rust `ErrorKind` from `src/lib.rs` (lines 84-94), without the source
range that `Error` attaches for diagnostics. -/
inductive ErrorKind where
  | unexpectedChar (c : Char)
  | expectedDelimiter (c : Char)
  | expected (e : Expected)
  | unexpected (u : Unexpected)
  | badNumber
  | unknownIdent (name : String)
  | incorrectArity
  | oneParamOnly
deriving Repr, DecidableEq

/-- Parser outcome marker: a returned `Error` (by kind), a Rust panic
(`unimplemented!` on an unhandled token), or the model's own fuel
exhaustion (corresponding to no Rust behaviour). -/
inductive PError where
  | err (k : ErrorKind)
  | panicked (msg : String)
  | outOfFuel
deriving Repr, DecidableEq

/-! ### Parser -/

/-- The loop of `read_params` (`src/parse/parse.rs` lines 25-41): read
parameter identifiers until a closing pipe.  A scalar identifier is an
`Expected(ArityIdent)` error; a non-identifier, non-pipe token is an
`Expected(Pipe)` error; running out of tokens is `ExpectedDelimiter('|')`. -/
def readParamsLoop : List Token → List (String × Nat) →
    Except PError (List (String × Nat) × List Token)
  | [], _ => .error (.err (.expectedDelimiter '|'))
  | t :: rest, params =>
    match t with
    | .ident name scalar arity =>
      if scalar then
        .error (.err (.expected .arityIdent))
      else
        readParamsLoop rest (params ++ [(name, arity)])
    | .pipe => .ok (params, rest)
    | _ => .error (.err (.expected .pipe))

/-- Rust `read_params` from `src/parse/parse.rs` (lines 18-42): expect an
opening pipe, then read parameters until the closing pipe. -/
def read_params (ts : List Token) :
    Except PError (List (String × Nat) × List Token) :=
  match ts with
  | .pipe :: rest => readParamsLoop rest []
  | _ :: _ => .error (.err (.expected .pipe))
  | [] => .error (.err (.expected .pipe))

/-- Rust `ParseDecl` from `src/parse/parse.rs` (lines 44-48): a declaration
as read by the parser, identifiers still carrying their arities. -/
inductive ParseDecl where
  | single (p : String × Nat)
  | destructure (ps : List (String × Nat))

/-- Rust `read_decl` from `src/parse/parse.rs` (lines 50-60). -/
def read_decl (ts : List Token) : Except PError (ParseDecl × List Token) :=
  match ts with
  | .pipe :: _ =>
    (read_params ts).map (fun pr => (.destructure pr.1, pr.2))
  | .ident name scalar arity :: rest =>
    if scalar then
      .error (.err (.expected .arityIdent))
    else
      .ok (.single (name, arity), rest)
  | _ :: _ => .error (.err (.expected .arityIdent))
  | [] => .error (.err (.expected .arityIdent))

/-- The `BUILTINS` table from `src/parse/parse.rs` (lines 62-82). -/
def BUILTINS : List (String × Nat) :=
  [("__head", 1), ("__tail", 1), ("__wrap", 1), ("__cat", 2),
   ("__add", 2), ("__sub", 2), ("__mul", 2), ("__div", 2), ("__rem", 2),
   ("__eq", 2), ("__less", 2), ("__lesseq", 2), ("__floor", 1), ("__ceil", 1),
   ("__input", 1), ("__print", 2), ("__debug", 1)]

/-- Rust `is_builtin` from `src/parse/parse.rs` (lines 84-86). -/
def is_builtin (name : String) : Bool :=
  (BUILTINS.find? (fun b => b.1 = name)).isSome

/-- The `get_ident_arity` closure of `read_expr` (`src/parse/parse.rs`
lines 123-130): chain built-ins, then globals, then locals, reverse the
chain and take the first match — so the most recently bound local wins,
then the most recent global, then built-ins. -/
def get_ident_arity (globals locals : List (String × Nat)) (ident : String) :
    Option Nat :=
  (((BUILTINS ++ globals ++ locals).reverse).find? (fun p => p.1 = ident)).map
    (fun p => p.2)

/-- Rust parses number literals with `str::parse::<f64>`; that grammar
is external to this repository and none of the claims involves it, so
the model accepts just the decimal-natural fragment. -/
def parseNum (s : String) : Option Float :=
  s.toNat?.map Nat.toFloat

mutual

/-- Rust `read_expr` from `src/parse/parse.rs` (lines 118-254), with fuel
(first argument, decremented once per call).  Returns the parsed
expression and the remaining tokens. -/
def read_expr : Nat → List Token → List (String × Nat) → List (String × Nat) →
    Except PError (Expr × List Token)
  | 0, _, _, _ => .error .outOfFuel
  | fuel + 1, ts, globals, locals =>
    match ts with
    | [] => .error (.err (.unexpected .eof))
    | t :: rest =>
      match t with
      | .num numStr =>
        match parseNum numStr with
        | some x => .ok (.literal (.num x), rest)
        | none => .error (.err .badNumber)
      | .true_ => .ok (.literal (.bool true), rest)
      | .false_ => .ok (.literal (.bool false), rest)
      | .null_ => .ok (.literal .null, rest)
      | .str s => .ok (.literal (.str s), rest)
      | .ident name scalar arity =>
        match rest with
        | .arrow :: rest2 => do
          -- closure shorthand `name -> body`
          let (body, rest3) ← read_expr fuel rest2 globals (locals ++ [(name, arity)])
          .ok (.closure (.single name) body, rest3)
        | _ =>
          match get_ident_arity globals locals name with
          | some a =>
            if arity ≠ 0 then
              .error (.err (.expected .noArityIdent))
            else if scalar then
              .ok (.call name [], rest)
            else if is_builtin name then do
              let (b, rest2) ← read_builtin fuel name rest globals locals
              .ok (.builtin b, rest2)
            else do
              let (argExprs, rest2) ← readCallArgs fuel a rest globals locals
              .ok (.call name argExprs, rest2)
          | none => .error (.err (.unknownIdent name))
      | .pipe => do
        -- `read_params` is handed the token stream with the pipe still
        -- unconsumed (it was only peeked), exactly as in the source
        let (params, rest2) ← read_params ts
        match rest2 with
        | .arrow :: rest3 => do
          let (body, rest4) ← read_expr fuel rest3 globals (locals ++ params)
          .ok (.closure (.destructure (params.map (fun p => p.1))) body, rest4)
        | _ :: _ => .error (.err (.expected .arrow))
        | [] => .error (.err (.expected .arrow))
      | .if_ => do
        let (c, r1) ← read_expr fuel rest globals locals
        let (tb, r2) ← read_expr fuel r1 globals locals
        let (fb, r3) ← read_expr fuel r2 globals locals
        .ok (.if_ c tb fb, r3)
      | .let_ => do
        let (decl, r1) ← read_decl rest
        let (ve, r2) ← read_expr fuel r1 globals locals
        let thenLocals :=
          match decl with
          | .single p => locals ++ [p]
          | .destructure ps => locals ++ ps
        let (body, r3) ← read_expr fuel r2 globals thenLocals
        .ok (.let_
              (match decl with
                | .single p => Decl.single p.1
                | .destructure ps => Decl.destructure (ps.map (fun p => p.1)))
              ve body,
             r3)
      | .def_ => .error (.err (.unexpected .def_))
      -- `t => unimplemented!("{:?}", t)` — Arrow or Dollar in expression
      -- position panics (Dollar is in fact never emitted by the lexer)
      | .arrow => .error (.panicked "unimplemented token")
      | .dollar => .error (.panicked "unimplemented token")

/-- Rust `read_builtin` from `src/parse/parse.rs` (lines 88-116): consume the
builtin's fixed operand count as sub-expressions. -/
def read_builtin : Nat → String → List Token → List (String × Nat) →
    List (String × Nat) → Except PError (Builtin × List Token)
  | 0, _, _, _, _ => .error .outOfFuel
  | fuel + 1, name, ts, globals, locals =>
    match name with
    | "__head" => (read_expr fuel ts globals locals).map (fun p => (.head p.1, p.2))
    | "__tail" => (read_expr fuel ts globals locals).map (fun p => (.tail p.1, p.2))
    | "__wrap" => (read_expr fuel ts globals locals).map (fun p => (.wrap p.1, p.2))
    | "__cat" => do
      let (a, r1) ← read_expr fuel ts globals locals
      let (b, r2) ← read_expr fuel r1 globals locals
      .ok (.cat a b, r2)
    | "__input" => (read_expr fuel ts globals locals).map (fun p => (.input p.1, p.2))
    | "__print" => do
      let (a, r1) ← read_expr fuel ts globals locals
      let (b, r2) ← read_expr fuel r1 globals locals
      .ok (.print a b, r2)
    | "__debug" => (read_expr fuel ts globals locals).map (fun p => (.debug p.1, p.2))
    | "__add" => do
      let (a, r1) ← read_expr fuel ts globals locals
      let (b, r2) ← read_expr fuel r1 globals locals
      .ok (.add a b, r2)
    | "__sub" => do
      let (a, r1) ← read_expr fuel ts globals locals
      let (b, r2) ← read_expr fuel r1 globals locals
      .ok (.sub a b, r2)
    | "__mul" => do
      let (a, r1) ← read_expr fuel ts globals locals
      let (b, r2) ← read_expr fuel r1 globals locals
      .ok (.mul a b, r2)
    | "__div" => do
      let (a, r1) ← read_expr fuel ts globals locals
      let (b, r2) ← read_expr fuel r1 globals locals
      .ok (.div a b, r2)
    | "__rem" => do
      let (a, r1) ← read_expr fuel ts globals locals
      let (b, r2) ← read_expr fuel r1 globals locals
      .ok (.rem a b, r2)
    | "__eq" => do
      let (a, r1) ← read_expr fuel ts globals locals
      let (b, r2) ← read_expr fuel r1 globals locals
      .ok (.eq a b, r2)
    | "__less" => do
      let (a, r1) ← read_expr fuel ts globals locals
      let (b, r2) ← read_expr fuel r1 globals locals
      .ok (.less a b, r2)
    | "__lesseq" => do
      let (a, r1) ← read_expr fuel ts globals locals
      let (b, r2) ← read_expr fuel r1 globals locals
      .ok (.lesseq a b, r2)
    | "__floor" => (read_expr fuel ts globals locals).map (fun p => (.floor p.1, p.2))
    | "__ceil" => (read_expr fuel ts globals locals).map (fun p => (.ceil p.1, p.2))
    | _ => .error (.panicked "unimplemented builtin")

/-- The argument loop of `read_expr`'s call case (`src/parse/parse.rs`
lines 182-185): parse exactly `arity` sub-expressions. -/
def readCallArgs : Nat → Nat → List Token → List (String × Nat) →
    List (String × Nat) → Except PError (List Expr × List Token)
  | 0, _, _, _, _ => .error .outOfFuel
  | _ + 1, 0, ts, _, _ => .ok ([], ts)
  | fuel + 1, n + 1, ts, globals, locals => do
    let (e, r1) ← read_expr fuel ts globals locals
    let (es, r2) ← readCallArgs fuel n r1 globals locals
    .ok (e :: es, r2)

end

/-- Rust `gen_global_arities` from `src/parse/parse.rs` (lines 256-278): scan
the token stream; for each `Def` record the following identifier's name
and trailing-quote arity, in encounter order, duplicates kept. -/
def gen_global_arities : List Token → Except PError (List (String × Nat))
  | [] => .ok []
  | .def_ :: rest =>
    match rest with
    | .ident name _ arity :: rest2 =>
      (gen_global_arities rest2).map (fun l => (name, arity) :: l)
    | _ :: _ => .error (.err (.expected .noArityIdent))
    | [] => .error (.err (.unexpected .eof))
  | _ :: rest => gen_global_arities rest

/-- The definition loop of `parse_program` (`src/parse/parse.rs`
lines 285-308): read `def <ident> <body>` repeatedly, inserting each
body into the program's global map (`HashMap::insert`: last wins). -/
def parseProgramLoop : Nat → List Token → List (String × Nat) → Program →
    Except PError Program
  | 0, _, _, _ => .error .outOfFuel
  | _ + 1, [], _, prog => .ok prog
  | fuel + 1, t :: rest, arities, prog =>
    match t with
    | .def_ =>
      match rest with
      | .ident name scalar _ :: rest2 =>
        if scalar then
          .error (.err (.expected .arityIdent))
        else do
          let (body, rest3) ← read_expr fuel rest2 arities []
          parseProgramLoop fuel rest3 arities ⟨assocInsert prog.globals name body⟩
      | _ :: _ => .error (.err (.expected .arityIdent))
      | [] => .error (.err (.unexpected .eof))
    | _ => .error (.err (.expected .def_))

/-- Rust `parse_program` from `src/parse/parse.rs` (lines 280-311): build the
global arity table in a prepass, then parse the definitions. -/
def parse_program (fuel : Nat) (ts : List Token) : Except PError Program := do
  let arities ← gen_global_arities ts
  parseProgramLoop fuel ts arities ⟨[]⟩

/-- Last-match lookup in an arity list: the value paired with the LAST
occurrence of the name (used to characterise `get_ident_arity`). -/
def lookupLast (l : List (String × Nat)) (n : String) : Option Nat :=
  (l.reverse.find? (fun p => p.1 = n)).map (fun p => p.2)

/-- Token stream of the program
`def f' x -> x   def f'' x -> y -> x   def main f true null`,
which defines the global `f` twice (arities 1 and 2) and calls it from
`main`. -/
def dupToks : List Token :=
  [.def_, .ident "f" false 1, .ident "x" false 0, .arrow, .ident "x" false 0,
   .def_, .ident "f" false 2, .ident "x" false 0, .arrow, .ident "y" false 0,
   .arrow, .ident "x" false 0,
   .def_, .ident "main" false 0, .ident "f" false 0, .true_, .null_]

/-! ## Theorems -/

/-! ### Shared helper lemmas -/

theorem option_map_or {α β : Type} (f : α → β) (a b : Option α) :
    (a.or b).map f = (a.map f).or (b.map f) := by
  cases a <;> rfl

/-- Rust `get_ident_arity` is last-match lookup in the locals, then in the
globals, then in the builtin table. -/
theorem get_ident_arity_chain (gs ls : List (String × Nat)) (n : String) :
    get_ident_arity gs ls n
      = ((lookupLast ls n).or ((lookupLast gs n).or (lookupLast BUILTINS n))) := by
  unfold get_ident_arity lookupLast
  rw [List.append_assoc, List.reverse_append, List.reverse_append,
    List.find?_append, List.find?_append, option_map_or, option_map_or,
    Option.or_assoc]

theorem lookupLast_eq_none (l : List (String × Nat)) (n : String)
    (h : ∀ p ∈ l, p.1 ≠ n) : lookupLast l n = none := by
  unfold lookupLast
  rw [List.find?_eq_none.mpr]
  · rfl
  · intro x hx
    simp only [decide_eq_true_eq]
    exact h x (List.mem_reverse.mp hx)

/-- Last-match lookup finds the last entry with the given key. -/
theorem lookupLast_append_last (gs1 gs2 : List (String × Nat)) (n : String)
    (a : Nat) (h2 : ∀ p ∈ gs2, p.1 ≠ n) :
    lookupLast (gs1 ++ (n, a) :: gs2) n = some a := by
  unfold lookupLast
  rw [List.reverse_append, List.reverse_cons, List.append_assoc,
    List.find?_append]
  have hnone : gs2.reverse.find? (fun p => decide (p.1 = n)) = none := by
    rw [List.find?_eq_none]
    intro x hx
    simp only [decide_eq_true_eq]
    exact h2 x (List.mem_reverse.mp hx)
  rw [hnone]
  simp [List.find?]

theorem assocGet_map_replace {α : Type} (m : List (String × α)) (k : String)
    (v : α) (h : m.any (fun p => p.1 = k) = true) :
    assocGet (m.map (fun p => if p.1 = k then (k, v) else p)) k = some v := by
  induction m with
  | nil => simp at h
  | cons p rest ih =>
    by_cases hp : p.1 = k
    · simp [assocGet, List.find?, hp]
    · have hr : rest.any (fun p => p.1 = k) = true := by
        simpa [List.any_cons, hp] using h
      simpa [assocGet, List.find?, hp] using ih hr

theorem assocGet_append_fresh {α : Type} (m : List (String × α)) (k : String)
    (v : α) (h : m.any (fun p => p.1 = k) = false) :
    assocGet (m ++ [(k, v)]) k = some v := by
  induction m with
  | nil => simp [assocGet, List.find?]
  | cons p rest ih =>
    have hp : ¬p.1 = k := by
      intro hk
      simp [List.any_cons, hk] at h
    have hr : rest.any (fun p => p.1 = k) = false := by
      simpa [List.any_cons, hp] using h
    simpa [assocGet, List.find?, hp] using ih hr

/-- Rust `HashMap::insert` semantics: after inserting `v` at key `k`, looking
up `k` yields `v`. -/
theorem assocGet_insert {α : Type} (m : List (String × α)) (k : String) (v : α) :
    assocGet (assocInsert m k v) k = some v := by
  unfold assocInsert
  split
  · exact assocGet_map_replace m k v (by assumption)
  · exact assocGet_append_fresh m k v (Bool.eq_false_iff.mpr (by assumption))

/-- C1: the claim says `__eq` on two lists is true exactly when the live
slices are element-wise equal.  The code compares the lengths of the
live slices but then zips the FULL backing buffers, so it diverges from
the claim in both directions: it returns `false` on lists with equal
live slices (offsets 1 and 0 over buffers `['a','b']` and `['b']`), and
`true` on lists with unequal live slices (offsets 0 and 1 over buffers
`['a']` and `['a','x']`). -/
theorem eq_full_buffer_divergence :
    (Value.eq (.list 1 [.char 'a', .char 'b']) (.list 0 [.char 'b']) = false
      ∧ (Value.list 1 [.char 'a', .char 'b']).liveSlice
          = (Value.list 0 [.char 'b']).liveSlice)
    ∧ (Value.eq (.list 0 [.char 'a']) (.list 1 [.char 'a', .char 'x']) = true
      ∧ (Value.list 0 [.char 'a']).liveSlice
          ≠ (Value.list 1 [.char 'a', .char 'x']).liveSlice) := by
  refine ⟨⟨rfl, rfl⟩, rfl, ?_⟩
  simp [Value.liveSlice]

/-- C2 counterexample: a parameter carrying one trailing arity mark
(`| x' |`) is NOT rejected with `Expected(ArityIdent)`; `read_params`
accepts it and records the arity. -/
theorem read_params_arity_marks_accepted :
    read_params [.pipe, .ident "x" false 1, .pipe] = .ok ([("x", 1)], [])
    ∧ read_params [.pipe, .ident "x" false 1, .pipe]
        ≠ .error (.err (.expected .arityIdent)) := by
  refine ⟨rfl, fun h => ?_⟩
  rw [show read_params [.pipe, .ident "x" false 1, .pipe]
        = .ok ([("x", 1)], []) from rfl] at h
  exact Except.noConfusion h

/-- C2 amended: in a parameter list, a SCALAR-prefixed identifier fails
with `Expected(ArityIdent)`; an identifier with any arity (zero or not)
is accepted, its arity recorded with the parameter; a pipe closes the
list. -/
theorem read_params_scalar_rejected_arity_recorded :
    (∀ (name : String) (arity : Nat) (rest : List Token)
        (acc : List (String × Nat)),
      readParamsLoop (.ident name true arity :: rest) acc
        = .error (.err (.expected .arityIdent)))
    ∧ (∀ (name : String) (arity : Nat) (rest : List Token)
        (acc : List (String × Nat)),
      readParamsLoop (.ident name false arity :: rest) acc
        = readParamsLoop rest (acc ++ [(name, arity)]))
    ∧ (∀ (rest : List Token) (acc : List (String × Nat)),
      readParamsLoop (.pipe :: rest) acc = .ok (acc, rest)) := by
  exact ⟨fun _ _ _ _ => rfl, fun _ _ _ _ => rfl, fun _ _ => rfl⟩

/-- C8: the empty list is a left and right identity of `__cat` on lists:
concatenation with the empty list returns a `List` whose live element
sequence is that of the other operand. -/
theorem cat_empty_identity (offset : Nat) (buf : List Value) :
    Value.cat (.list 0 []) (.list offset buf) = .list 0 (buf.drop offset)
    ∧ Value.cat (.list offset buf) (.list 0 []) = .list 0 (buf.drop offset)
    ∧ (Value.cat (.list 0 []) (.list offset buf)).liveSlice
        = (Value.list offset buf).liveSlice
    ∧ (Value.cat (.list offset buf) (.list 0 [])).liveSlice
        = (Value.list offset buf).liveSlice := by
  refine ⟨rfl, ?_, ?_, ?_⟩ <;> simp [Value.cat, Value.liveSlice]

/-- C9 counterexample: after a backslash, a double quote does NOT decode
as a dropped escape (which would continue the literal); it terminates
the string.  Lexing the tail `\"` of a literal whose decoded text so far
is `"a"` yields the token text `"a"` with input left over, where the
dropped-escape reading would continue and run out of input. -/
theorem lexString_escaped_quote_terminates :
    lexString ['\\', '"'] "a" false = some ("a", [])
    ∧ lexString [] "a" false = none
    ∧ some ("a", ([] : List Char)) ≠ (none : Option (String × List Char)) := by
  exact ⟨rfl, rfl, by decide⟩

/-- C9 amended: in a string literal `\\` decodes to a backslash and `\n`
to a newline; a backslash followed by any character other than `"` and
the NUL sentinel contributes nothing to the decoded text (unknown
escapes are silently dropped); `\"` terminates the literal, and a NUL
after a backslash ends the input (unterminated string). -/
theorem lexString_escape_decoding :
    (∀ (rest : List Char) (text : String),
      lexString ('\\' :: '\\' :: rest) text false
        = lexString rest (text.push '\\') false)
    ∧ (∀ (rest : List Char) (text : String),
      lexString ('\\' :: 'n' :: rest) text false
        = lexString rest (text.push '\n') false)
    ∧ (∀ (rest : List Char) (text : String) (c : Char),
      c ≠ '\\' → c ≠ 'n' → c ≠ '"' → c ≠ '\x00' →
      lexString ('\\' :: c :: rest) text false = lexString rest text false)
    ∧ (∀ (rest : List Char) (text : String),
      lexString ('\\' :: '"' :: rest) text false = some (text, rest))
    ∧ (∀ (rest : List Char) (text : String),
      lexString ('\\' :: '\x00' :: rest) text false = none) := by
  have step1 : ∀ (c : Char) (rest : List Char) (text : String),
      lexString ('\\' :: c :: rest) text false
        = lexString (c :: rest) text true := by
    intro c rest text
    rw [show lexString ('\\' :: c :: rest) text false
          = if ('\\' : Char) = '"' then some (text, c :: rest)
            else if ('\\' : Char) = '\x00' then none
            else if false then
              lexString (c :: rest)
                (match ('\\' : Char) with
                  | '\\' => text.push '\\'
                  | 'n' => text.push '\n'
                  | _ => text) false
            else if ('\\' : Char) = '\\' then lexString (c :: rest) text true
            else lexString (c :: rest) (text.push '\\') false from rfl]
    rw [if_neg (by decide), if_neg (by decide), if_neg (by simp), if_pos rfl]
  refine ⟨fun rest text => by simp [lexString],
          fun rest text => by simp [lexString],
          fun rest text c h1 h2 h3 h4 => ?_,
          fun rest text => by simp [lexString],
          fun rest text => by simp [lexString]⟩
  rw [step1]
  simp only [lexString, if_neg h3, if_neg h4, if_true]

/-- C9 amended witness: the unknown escape `\q` is silently dropped. -/
theorem lexString_escape_decoding_witness :
    ('q' ≠ '\\' ∧ 'q' ≠ 'n' ∧ 'q' ≠ '"' ∧ 'q' ≠ '\x00')
    ∧ lexString ('\\' :: 'q' :: ['"']) "ab" false
        = lexString ['"'] "ab" false :=
  ⟨⟨by decide, by decide, by decide, by decide⟩,
    lexString_escape_decoding.2.2.1 ['"'] "ab" 'q'
      (by decide) (by decide) (by decide) (by decide)⟩

/-- C10: `__div` on two `Num`s performs IEEE division with no
divisor-zero guard and never fails: the result is `Num (a / b)` (`Float`
is IEEE-754 binary64, like Rust's `f64`, so `a / 0` is the IEEE infinity
or NaN, not an error); the instance `b = 0` succeeds like any other. -/
theorem div_no_zero_guard (a b : Float) :
    Value.div (.num a) (.num b) = .ok (.num (a / b))
    ∧ Value.div (.num a) (.num 0) = .ok (.num (a / 0)) :=
  ⟨rfl, rfl⟩

/-- C3: a successful `__input` or `__print` effect consumes a `Universe`
whose tag equals the current counter, increments the counter, and
returns (respectively, threads) a universe whose tag is the consumed tag
plus one; any argument that is not the current universe token fails
fatally. -/
theorem universe_effects_increment (u v r : Value) (st st' : EvalState) :
    (Value.input u st = .ok (r, st') →
      u = .Universe st.nextUniverse
      ∧ st'.nextUniverse = st.nextUniverse + 1
      ∧ ∃ line, r = .list 0 [.Universe (st.nextUniverse + 1), line])
    ∧ (Value.print u v st = .ok (r, st') →
      u = .Universe st.nextUniverse
      ∧ r = .Universe (st.nextUniverse + 1)
      ∧ st'.nextUniverse = st.nextUniverse + 1)
    ∧ (u ≠ .Universe st.nextUniverse →
      Value.input u st = .error (.fatal "Invalid universe value!")
      ∧ Value.print u v st = .error (.fatal "Invalid universe value!")) := by
  refine ⟨?_, ?_, ?_⟩
  · intro h
    cases u with
    | Universe a =>
      by_cases ha : a = st.nextUniverse
      · subst ha
        simp [Value.input] at h
        obtain ⟨h1, h2⟩ := h
        subst h1
        subst h2
        exact ⟨rfl, rfl, ⟨_, rfl⟩⟩
      · simp [Value.input, ha] at h
    | null => simp [Value.input] at h
    | bool b => simp [Value.input] at h
    | num x => simp [Value.input] at h
    | char c => simp [Value.input] at h
    | list o b => simp [Value.input] at h
    | func l d e => simp [Value.input] at h
  · intro h
    cases u with
    | Universe a =>
      by_cases ha : a = st.nextUniverse
      · subst ha
        simp [Value.print] at h
        obtain ⟨h1, h2⟩ := h
        subst h1
        subst h2
        exact ⟨rfl, rfl, rfl⟩
      · simp [Value.print, ha] at h
    | null => simp [Value.print] at h
    | bool b => simp [Value.print] at h
    | num x => simp [Value.print] at h
    | char c => simp [Value.print] at h
    | list o b => simp [Value.print] at h
    | func l d e => simp [Value.print] at h
  · intro hne
    cases u with
    | Universe a =>
      have ha : a ≠ st.nextUniverse := fun h => hne (by rw [h])
      exact ⟨by simp [Value.input, ha], by simp [Value.print, ha]⟩
    | null => exact ⟨rfl, rfl⟩
    | bool b => exact ⟨rfl, rfl⟩
    | num x => exact ⟨rfl, rfl⟩
    | char c => exact ⟨rfl, rfl⟩
    | list o b => exact ⟨rfl, rfl⟩
    | func l d e => exact ⟨rfl, rfl⟩

/-- C3 witness: printing at the current universe `0` succeeds, and the
theorem yields the tag facts at that concrete effect. -/
theorem universe_effects_increment_witness :
    Value.print (.Universe 0) .null ⟨0, [], [], []⟩
      = .ok (.Universe 1, ⟨1, [], ["null\n"], []⟩)
    ∧ ((Value.Universe 0 : Value)
          = .Universe (EvalState.mk 0 [] [] []).nextUniverse
      ∧ (Value.Universe 1 : Value)
          = .Universe ((EvalState.mk 0 [] [] []).nextUniverse + 1)
      ∧ (EvalState.mk 1 [] ["null\n"] []).nextUniverse
          = (EvalState.mk 0 [] [] []).nextUniverse + 1) :=
  ⟨rfl,
    (universe_effects_increment (.Universe 0) .null (.Universe 1)
      ⟨0, [], [], []⟩ ⟨1, [], ["null\n"], []⟩).2.1 rfl⟩

/-- Iterating `__tail` on a list advances the offset one step per
application, clamped to the buffer length. -/
theorem tail_iterate_min (offset : Nat) (buf : List Value) (n : Nat) :
    Value.tail^[n + 1] (.list offset buf)
      = .list (min (offset + n + 1) buf.length) buf := by
  induction n with
  | zero => rfl
  | succ m ih =>
    rw [Function.iterate_succ_apply', ih]
    simp only [Value.tail]
    congr 1
    omega

/-- C5: `__tail` on a `List` advances the offset by one, clamped to the
buffer length, sharing the backing buffer; on a non-`List` it returns
`Null`; and applying it to a list more times than the length of the live
slice yields an empty `List` (offset at the buffer's end, live slice
empty), never an error. -/
theorem tail_clamped_never_fatal :
    (∀ (offset : Nat) (buf : List Value),
      Value.tail (.list offset buf) = .list (min (offset + 1) buf.length) buf)
    ∧ (∀ v : Value, (∀ offset buf, v ≠ .list offset buf) → Value.tail v = .null)
    ∧ (∀ (offset : Nat) (buf : List Value) (n : Nat),
      buf.length - offset < n →
      Value.tail^[n] (.list offset buf) = .list buf.length buf
      ∧ (Value.tail^[n] (.list offset buf)).liveSlice = []) := by
  refine ⟨fun _ _ => rfl, ?_, ?_⟩
  · intro v hv
    cases v with
    | list offset buf => exact absurd rfl (hv offset buf)
    | null => rfl
    | bool b => rfl
    | num x => rfl
    | char c => rfl
    | func l d e => rfl
    | Universe n => rfl
  · intro offset buf n hn
    obtain ⟨m, rfl⟩ : ∃ m, n = m + 1 := ⟨n - 1, by omega⟩
    have hmin : min (offset + m + 1) buf.length = buf.length := by omega
    rw [tail_iterate_min, hmin]
    exact ⟨rfl, by simp [Value.liveSlice]⟩

/-- C5 witness: two tails of the one-element list `[null]` yield the
empty list. -/
theorem tail_clamped_never_fatal_witness :
    [Value.null].length - 0 < 2
    ∧ Value.tail^[2] (.list 0 [.null]) = .list [Value.null].length [.null]
    ∧ (Value.tail^[2] (.list 0 [.null])).liveSlice = [] :=
  ⟨by simp,
    (tail_clamped_never_fatal.2.2 0 [Value.null] 2 (by simp)).1,
    (tail_clamped_never_fatal.2.2 0 [Value.null] 2 (by simp)).2⟩

/-- C6: an `If` expression takes the "then" branch exactly when the
condition evaluates to `Bool(true)`; every other condition value,
`Bool(false)` and non-`Bool` values alike, takes the "else" branch,
without error. -/
theorem if_branch_selection (fuel : Nat) (c t f : Expr) (prog : Program)
    (args : List Value) (locals : Env) (st st' : EvalState) (v : Value) :
    eval fuel c prog args locals st = .ok (v, st') →
    (v = .bool true →
      eval (fuel + 1) (.if_ c t f) prog args locals st
        = eval fuel t prog args locals st')
    ∧ (v ≠ .bool true →
      eval (fuel + 1) (.if_ c t f) prog args locals st
        = eval fuel f prog args locals st') := by
  intro h
  constructor
  · intro hv
    subst hv
    simp only [eval, h]
    rfl
  · intro hv
    simp only [eval, h]
    cases v with
    | bool b =>
      cases b with
      | true => exact absurd rfl hv
      | false => rfl
    | null => rfl
    | num x => rfl
    | char c => rfl
    | list o b => rfl
    | func l d e => rfl
    | Universe n => rfl

/-- C6 witness: a `Null` condition takes the "else" branch. -/
theorem if_branch_selection_witness :
    eval 1 (.literal .null) ⟨[]⟩ [] [] ⟨0, [], [], []⟩
      = .ok (.null, ⟨0, [], [], []⟩)
    ∧ Value.null ≠ .bool true
    ∧ eval 2 (.if_ (.literal .null) (.literal (.bool true))
          (.literal (.str "els"))) ⟨[]⟩ [] [] ⟨0, [], [], []⟩
      = eval 1 (.literal (.str "els")) ⟨[]⟩ [] [] ⟨0, [], [], []⟩ :=
  ⟨rfl, fun h => Value.noConfusion h,
    (if_branch_selection 1 (.literal .null) (.literal (.bool true))
      (.literal (.str "els")) ⟨[]⟩ [] [] ⟨0, [], [], []⟩ ⟨0, [], [], []⟩
      .null rfl).2 (fun h => Value.noConfusion h)⟩

/-- C4: a bare identifier at a use site resolves by searching locals
(most recently bound first), then globals, then built-ins — so a local
binding shadows a global and a built-in of the same name — and an
identifier found in no scope fails with `UnknownIdent`. -/
theorem ident_resolution_order :
    (∀ (gs ls : List (String × Nat)) (n : String),
      get_ident_arity gs ls n
        = ((lookupLast ls n).or ((lookupLast gs n).or (lookupLast BUILTINS n))))
    ∧ (∀ (gs ls : List (String × Nat)) (n : String) (a : Nat),
      get_ident_arity gs (ls ++ [(n, a)]) n = some a)
    ∧ (∀ (fuel : Nat) (ts : List Token) (gs ls : List (String × Nat))
        (name : String) (scalar : Bool) (arity : Nat),
      get_ident_arity gs ls name = none →
      ts.head? ≠ some Lexeme.arrow →
      read_expr (fuel + 1) (Lexeme.ident name scalar arity :: ts) gs ls
        = .error (.err (.unknownIdent name))) := by
  refine ⟨get_ident_arity_chain, ?_, ?_⟩
  · intro gs ls n a
    rw [get_ident_arity_chain]
    have h : lookupLast (ls ++ [(n, a)]) n = some a := by
      unfold lookupLast
      rw [List.reverse_append]
      simp [List.find?]
    rw [h]
    rfl
  · intro fuel ts gs ls name scalar arity hnone hhead
    cases ts with
    | nil => simp [read_expr, hnone]
    | cons t rest =>
      cases t with
      | arrow => exact absurd rfl hhead
      | ident n2 s2 a2 => simp [read_expr, hnone]
      | str s => simp [read_expr, hnone]
      | num s => simp [read_expr, hnone]
      | def_ => simp [read_expr, hnone]
      | let_ => simp [read_expr, hnone]
      | if_ => simp [read_expr, hnone]
      | true_ => simp [read_expr, hnone]
      | false_ => simp [read_expr, hnone]
      | null_ => simp [read_expr, hnone]
      | pipe => simp [read_expr, hnone]
      | dollar => simp [read_expr, hnone]

/-- C4 witness: an identifier bound in no scope fails with
`UnknownIdent`. -/
theorem ident_resolution_order_witness :
    get_ident_arity [] [] "zzz" = none
    ∧ ([] : List Token).head? ≠ some Lexeme.arrow
    ∧ read_expr 1 [Lexeme.ident "zzz" false 0] [] []
        = .error (.err (.unknownIdent "zzz")) :=
  ⟨rfl, by decide,
    ident_resolution_order.2.2 0 [] [] [] "zzz" false 0 rfl (by decide)⟩

/-- C7: duplicate global definitions are not reported: the arity table
keeps every definition in textual order and call-site lookup takes the
LAST entry for a name (when no local shadows it); the program map keeps
the last inserted body (`HashMap::insert`).  Concretely, the program
`def f' x -> x  def f'' x -> y -> x  def main f true null` parses
without error, the call site `f` in `main` consumes two arguments (the
second definition's arity), and the body kept for `f` is the second
definition's. -/
theorem duplicate_defs_last_wins :
    (∀ (gs1 gs2 ls : List (String × Nat)) (n : String) (a : Nat),
      (∀ p ∈ gs2, p.1 ≠ n) → (∀ p ∈ ls, p.1 ≠ n) →
      get_ident_arity (gs1 ++ (n, a) :: gs2) ls n = some a)
    ∧ (∀ (m : List (String × Expr)) (n : String) (b1 b2 : Expr),
      assocGet (assocInsert (assocInsert m n b1) n b2) n = some b2)
    ∧ gen_global_arities dupToks = .ok [("f", 1), ("f", 2), ("main", 0)]
    ∧ (parse_program 10 dupToks).map (fun p => p.globals)
        = .ok [("f", .closure (.single "x")
                  (.closure (.single "y") (.call "x" []))),
               ("main", .call "f" [.literal (.bool true), .literal .null])] := by
  refine ⟨?_, ?_, rfl, rfl⟩
  · intro gs1 gs2 ls n a h2 hls
    rw [get_ident_arity_chain, lookupLast_eq_none ls n hls,
      lookupLast_append_last gs1 gs2 n a h2]
    rfl
  · intro m n b1 b2
    exact assocGet_insert (assocInsert m n b1) n b2

/-- C7 witness: with the arity table of the duplicated program
(`f` at arities 1 then 2), the call-site lookup of `f` yields 2. -/
theorem duplicate_defs_last_wins_witness :
    (∀ p ∈ [("main", 0)], Prod.fst p ≠ "f")
    ∧ (∀ p ∈ ([] : List (String × Nat)), Prod.fst p ≠ "f")
    ∧ get_ident_arity ([("f", 1)] ++ ("f", 2) :: [("main", 0)]) [] "f"
        = some 2 :=
  ⟨by decide, by simp,
    duplicate_defs_last_wins.1 [("f", 1)] [("main", 0)] [] "f" 2
      (by decide) (by simp)⟩

end Atto
